import Mathlib

/-!
Shallow embedding of the ZeroStack2D interpreter (src/ZeroStack2D.py).

The stack is a singly linked list whose head is the top; we model it as a
`List Int` (head = top).  The interpreter state is the tuple
(x, y, direction, stack) together with the remaining stdin lines and the
output emitted so far.  Python list indexing (which accepts negative
indices by wrapping from the end) is modelled exactly by `pyIndex`.
-/

namespace ZeroStack2D

/-- One step of `Stack.pop` (src lines 54–63): on an empty stack return 0 and
leave the stack empty; otherwise return the head and drop it. -/
def Stack.pop (s : List Int) : Int × List Int :=
  match s with
  | [] => (0, [])
  | a :: rest => (a, rest)

/-- `Stack.push` (src lines 45–52): the new value becomes the head. -/
def Stack.push (v : Int) (s : List Int) : List Int := v :: s

/-- `Stack.swap` (src lines 65–75): if the stack is empty, push a 0 first;
then `a = pop()`, `b = pop() if self else 0`, `push(a)`, `push(b)`. -/
def Stack.swap (s : List Int) : List Int :=
  let s1 := if s.isEmpty then Stack.push 0 s else s
  let p1 := Stack.pop s1
  let p2 := if p1.2.isEmpty then ((0 : Int), p1.2) else Stack.pop p1.2
  Stack.push p2.1 (Stack.push p1.1 p2.2)

/-- `Stack.add` (src lines 77–83): `a = pop()`, `push(b + a)`. -/
def Stack.add (b : Int) (s : List Int) : List Int :=
  let p := Stack.pop s
  Stack.push (b + p.1) p.2

/-- Python list indexing `l[i]` for a signed index: a negative index counts
from the end (`l[-1]` is the last element); an index out of the range
`[-len, len)` raises `IndexError`, modelled as `none`. -/
def pyIndex {α : Type} (l : List α) (i : Int) : Option α :=
  let j := if i < 0 then i + l.length else i
  if j < 0 then none else l.get? j.toNat

/-- Instruction fetch (src lines 105–110): `cmd = program[y][x]`, with an
`IndexError` from either indexing operation caught and replaced by the blank
instruction `' '`.  Negative indices that are in Python range wrap around and
do NOT raise `IndexError`. -/
def fetch (program : List (List Char)) (x y : Int) : Char :=
  match pyIndex program y with
  | none => ' '
  | some row =>
    match pyIndex row x with
    | none => ' '
    | some ch => ch

/-- Python `ord(s)` on the string returned by `input()`: defined only when
the string has exactly one character (otherwise `ord` raises `TypeError`). -/
def pyOrd (s : List Char) : Option Nat :=
  match s with
  | [c] => some c.toNat
  | _ => none

/-- Python `chr(v)`: the code point `v` when `0 ≤ v ≤ 0x10FFFF`, otherwise a
`ValueError`, modelled as `none`. -/
def pyChr (v : Int) : Option Nat :=
  if 0 ≤ v ∧ v ≤ 0x10FFFF then some v.toNat else none

/-- Whitespace stripped by Python's `str.strip()` (ASCII part), as used by
`int(...)` before parsing. -/
def pyIsSpace (c : Char) : Bool :=
  c = ' ' || c = '\t' || c = '\n' || c = '\r' || c = '\x0b' || c = '\x0c'

/-- Strip leading and trailing whitespace, as `int(...)` does. -/
def pyStrip (s : List Char) : List Char :=
  ((s.dropWhile pyIsSpace).reverse.dropWhile pyIsSpace).reverse

/-- After the first digit, a base-10 integer literal accepted by `int(...)`
is a sequence of digits where a single underscore may appear between two
digits (never doubled, never trailing). -/
def digitsTail : List Char → Bool
  | [] => true
  | ['_'] => false
  | '_' :: c :: r => c.isDigit && digitsTail r
  | c :: r => c.isDigit && digitsTail r

/-- A nonempty digit sequence (with optional internal underscores) as
accepted by Python `int(...)` after the optional sign. -/
def digitsOk : List Char → Bool
  | [] => false
  | c :: r => c.isDigit && digitsTail r

/-- Numeric value of a digit sequence, ignoring underscores. -/
def digitsVal (cs : List Char) : Nat :=
  cs.foldl (fun acc c => if c = '_' then acc else acc * 10 + (c.toNat - 48)) 0

/-- Python `int(s)` on the line returned by `input()`: strip surrounding
whitespace, allow one optional sign, then a nonempty digit sequence; any
other shape raises `ValueError`, modelled as `none`. -/
def pyInt (s : String) : Option Int :=
  match pyStrip s.data with
  | '+' :: rest => if digitsOk rest then some (Int.ofNat (digitsVal rest)) else none
  | '-' :: rest => if digitsOk rest then some (-(Int.ofNat (digitsVal rest))) else none
  | cs => if digitsOk cs then some (Int.ofNat (digitsVal cs)) else none

/-- One item written to standard output: `.` writes a decimal number followed
by a newline, `,` writes the single character with the given code point. -/
inductive OutItem
  | num (v : Int)
  | chr (code : Nat)
deriving DecidableEq, Repr

/-- The mutable interpreter state of the main loop (src lines 98–102):
IP coordinates, direction (0 = right, 1 = up, 2 = left, 3 = down), the data
stack, plus the remaining stdin lines (each without its trailing newline, as
returned by `input()`) and the output emitted so far. -/
structure Config where
  x : Int
  y : Int
  d : Nat
  stack : List Int
  inp : List String
  out : List OutItem
deriving DecidableEq, Repr

/-- Result of one dispatch or one full step: continue with a new state, halt
normally via `@` (`sys.exit(0)`), or die with an uncaught exception
(`TypeError` from `ord`, `ValueError` from `int` or `chr`, `EOFError` from
`input()`), which terminates the process with a nonzero status. -/
inductive StepResult
  | next (c : Config)
  | halted
  | fatal
deriving DecidableEq, Repr

/-- The dispatch chain of the main loop (src lines 111–192), translated
case by case (the Python `if`/`elif` chain tests disjoint characters, so it
is equivalently a first-match pattern match); the IP coordinates are not
touched by any instruction. -/
def dispatch (cmd : Char) (c : Config) : StepResult :=
  match cmd with
  | '>' => .next { c with d := 0 }
  | '<' => .next { c with d := 2 }
  | '^' => .next { c with d := 1 }
  | 'v' => .next { c with d := 3 }
  | '!' | '0' => .next { c with stack := Stack.push 0 c.stack }
  | '+' => .next { c with stack := Stack.add 1 c.stack }
  | '-' => .next { c with stack := Stack.add (-1) c.stack }
  | ':' =>
    .next { c with stack := (Stack.push (Stack.pop c.stack).1
      (Stack.push (Stack.pop c.stack).1 (Stack.pop c.stack).2)) }
  | '\\' | '/' => .next { c with stack := Stack.swap c.stack }
  | '?' =>
    match c.inp with
    | [] => .fatal
    | line :: rest =>
      match pyOrd line.data with
      | none => .fatal
      | some n => .next { c with stack := Stack.push (Int.ofNat n) c.stack, inp := rest }
  | '~' =>
    match c.inp with
    | [] => .fatal
    | line :: rest =>
      match pyInt line with
      | none => .fatal
      | some v => .next { c with stack := Stack.push v c.stack, inp := rest }
  | '$' => .next { c with stack := (Stack.pop c.stack).2 }
  | '.' =>
    .next { c with stack := (Stack.pop c.stack).2,
                   out := c.out ++ [OutItem.num (Stack.pop c.stack).1] }
  | ',' =>
    match pyChr (Stack.pop c.stack).1 with
    | none => .fatal
    | some n => .next { c with stack := (Stack.pop c.stack).2,
                               out := c.out ++ [OutItem.chr n] }
  | '|' =>
    if c.stack.isEmpty then .next { c with d := 3 }
    else
      .next { c with d := if (Stack.pop c.stack).1 ≠ 0 then 1 else 3,
                     stack := Stack.push (Stack.pop c.stack).1 (Stack.pop c.stack).2 }
  | '_' =>
    if c.stack.isEmpty then .next { c with d := 2 }
    else
      .next { c with
        d := if (Stack.pop (Stack.pop c.stack).2).1 ≠ 0 then 0 else 2,
        stack := (Stack.push (Stack.pop (Stack.pop c.stack).2).1
          (Stack.pop (Stack.pop c.stack).2).2) }
  | '@' => .halted
  | _ => .next c

/-- IP movement (src lines 195–202): one cell in the current direction;
an out-of-range direction value moves nothing (the chain has no final else). -/
def move (d : Nat) (x y : Int) : Int × Int :=
  if d = 0 then (x + 1, y)
  else if d = 1 then (x, y - 1)
  else if d = 2 then (x - 1, y)
  else if d = 3 then (x, y + 1)
  else (x, y)

/-- One iteration of the main loop: fetch, dispatch, then move the IP —
unless the dispatch halted (`@`) or raised. -/
def step (program : List (List Char)) (c : Config) : StepResult :=
  match dispatch (fetch program c.x c.y) c with
  | .next cm => .next { cm with x := (move cm.d cm.x cm.y).1, y := (move cm.d cm.x cm.y).2 }
  | .halted => .halted
  | .fatal => .fatal

/-- Stack states reachable by any sequence of push and pop operations,
starting from the empty stack the interpreter creates at start. -/
inductive Reachable : List Int → Prop
  | init : Reachable []
  | push (v : Int) (s : List Int) : Reachable s → Reachable (Stack.push v s)
  | pop (s : List Int) : Reachable s → Reachable (Stack.pop s).2

/-- Outcome of process startup (src lines 10–19 and 88–97). -/
inductive StartResult
  | runs (path : String)
  | usageExit (code : Nat)
  | silentExit (code : Nat)
deriving DecidableEq, Repr

/-- Command-line startup: `argparse` is configured with exactly one required
positional argument `input_file`.  When the argument list does not consist of
exactly one argument, `parse_args()` prints a usage error to stderr and
raises `SystemExit(2)`; the surrounding `except IndexError` handler (which
would perform `sys.exit(0)` silently) does not catch `SystemExit`, so the
process exits with status 2 after printing usage text (`usageExit 2`).
`silentExit 0` is what that handler would produce, and is never reached. -/
def startup (argv : List String) : StartResult :=
  match argv with
  | [path] => .runs path
  | _ => .usageExit 2

/-! Reduction lemmas for single dispatch cases, used to reason about a
symbolic configuration. -/

theorem dispatch_underscore_eq (c : Config) :
    dispatch '_' c =
      (if c.stack.isEmpty then StepResult.next { c with d := 2 }
       else StepResult.next { c with
         d := if (Stack.pop (Stack.pop c.stack).2).1 ≠ 0 then 0 else 2,
         stack := (Stack.push (Stack.pop (Stack.pop c.stack).2).1
           (Stack.pop (Stack.pop c.stack).2).2) }) := rfl

theorem dispatch_pipe_eq (c : Config) :
    dispatch '|' c =
      (if c.stack.isEmpty then StepResult.next { c with d := 3 }
       else StepResult.next { c with
         d := if (Stack.pop c.stack).1 ≠ 0 then 1 else 3,
         stack := Stack.push (Stack.pop c.stack).1 (Stack.pop c.stack).2 }) := rfl

theorem dispatch_q_eq (c : Config) :
    dispatch '?' c =
      (match c.inp with
       | [] => StepResult.fatal
       | line :: rest =>
         match pyOrd line.data with
         | none => StepResult.fatal
         | some n =>
           StepResult.next { c with stack := Stack.push (Int.ofNat n) c.stack, inp := rest }) := rfl

theorem dispatch_tilde_eq (c : Config) :
    dispatch '~' c =
      (match c.inp with
       | [] => StepResult.fatal
       | line :: rest =>
         match pyInt line with
         | none => StepResult.fatal
         | some v => StepResult.next { c with stack := Stack.push v c.stack, inp := rest }) := rfl

theorem dispatch_comma_eq (c : Config) :
    dispatch ',' c =
      (match pyChr (Stack.pop c.stack).1 with
       | none => StepResult.fatal
       | some n => StepResult.next { c with stack := (Stack.pop c.stack).2,
                                            out := c.out ++ [OutItem.chr n] }) := rfl

theorem pyOrd_single (ch : Char) : pyOrd [ch] = some ch.toNat := rfl

theorem pyOrd_not_single (s : List Char) (h : s.length ≠ 1) : pyOrd s = none := by
  cases s with
  | nil => rfl
  | cons a tl =>
    cases tl with
    | nil => exact absurd rfl h
    | cons b tl2 => rfl

theorem dispatch_pos (cmd : Char) (c cm : Config)
    (h : dispatch cmd c = StepResult.next cm) : cm.x = c.x ∧ cm.y = c.y := by
  unfold dispatch at h
  repeat' split at h
  all_goals first
    | (cases h; exact ⟨rfl, rfl⟩)
    | cases h

/-- Claim C1: on every stack state reachable by any sequence of push/pop
operations, `pop()` on the empty stack returns 0 and leaves the stack empty
(size 0, state unchanged); `pop` is a total function. -/
theorem pop_empty_returns_zero (s : List Int) (hr : Reachable s) (he : s = []) :
    Stack.pop s = (0, []) ∧ (Stack.pop s).2.length = 0 := by
  subst he
  exact ⟨rfl, rfl⟩

theorem pop_empty_returns_zero_witness :
    Stack.pop [] = (0, []) ∧ (Stack.pop ([] : List Int)).2.length = 0 :=
  pop_empty_returns_zero [] Reachable.init rfl

/-- Claim C2, refuted on the code: Python's negative indexing wraps around,
so the fetch at x = -1 on the single row "ab" returns the populated cell 'b'
(the last cell of the row), and the fetch at y = -1 on a two-row grid
returns a cell of the last row — not the blank instruction the claim
requires. -/
theorem fetch_negative_wraps :
    fetch [['a', 'b']] (-1) 0 = 'b' ∧
    fetch [['a'], ['b']] 0 (-1) = 'b' ∧
    ('b' : Char) ≠ ' ' :=
  ⟨rfl, rfl, by decide⟩

/-- Claim C3, refuted on the code: with no program-file argument,
`argparse.parse_args()` prints a usage error and raises `SystemExit(2)`;
the `except IndexError: sys.exit(0)` handler does not catch it, so the
process exits with status 2 and is not silent. -/
theorem startup_missing_arg_exits_two :
    startup [] = StartResult.usageExit 2 ∧
    StartResult.usageExit 2 ≠ StartResult.silentExit 0 :=
  ⟨rfl, by decide⟩

/-- Claim C4: the horizontal branch on a non-empty stack pops and discards
the top element, pops a second value a (0 by the underflow rule when absent),
sets direction RIGHT (0) if a is nonzero and LEFT (2) otherwise, and pushes
a back; on an empty stack it sets direction LEFT (2) and leaves the stack
empty and unchanged. -/
theorem hbranch_semantics (c : Config) :
    (∀ t rest, c.stack = t :: rest →
       dispatch '_' c = StepResult.next { c with
         d := if (Stack.pop rest).1 ≠ 0 then 0 else 2,
         stack := Stack.push (Stack.pop rest).1 (Stack.pop rest).2 }) ∧
    (c.stack = [] → dispatch '_' c = StepResult.next { c with d := 2 }) := by
  constructor
  · intro t rest h
    rw [dispatch_underscore_eq, h]
    simp [Stack.pop]
  · intro h
    rw [dispatch_underscore_eq, h]
    simp

theorem hbranch_semantics_witness :
    dispatch '_' { x := 0, y := 0, d := 0, stack := [7, 3], inp := [], out := [] } =
      StepResult.next { x := 0, y := 0, d := 0, stack := [3], inp := [], out := [] } ∧
    dispatch '_' { x := 0, y := 0, d := 0, stack := [], inp := [], out := [] } =
      StepResult.next { x := 0, y := 0, d := 2, stack := [], inp := [], out := [] } := by
  constructor
  · have h := (hbranch_semantics
      { x := 0, y := 0, d := 0, stack := [7, 3], inp := [], out := [] }).1 7 [3] rfl
    simpa [Stack.pop, Stack.push] using h
  · exact (hbranch_semantics { x := 0, y := 0, d := 0, stack := [], inp := [], out := [] }).2 rfl

/-- Claim C5: the vertical branch on a non-empty stack pops the top value a,
sets direction UP (1) if a is nonzero and DOWN (3) otherwise, and pushes a
back, so the stack is unchanged; on an empty stack it sets direction
DOWN (3) and leaves the stack empty and unchanged (no push occurs). -/
theorem vbranch_semantics (c : Config) :
    (∀ a rest, c.stack = a :: rest →
       dispatch '|' c = StepResult.next { c with d := if a ≠ 0 then 1 else 3 }) ∧
    (c.stack = [] → dispatch '|' c = StepResult.next { c with d := 3 }) := by
  constructor
  · intro a rest h
    rw [dispatch_pipe_eq, h]
    simp [Stack.pop, Stack.push]
  · intro h
    rw [dispatch_pipe_eq, h]
    simp

theorem vbranch_semantics_witness :
    dispatch '|' { x := 0, y := 0, d := 0, stack := [5], inp := [], out := [] } =
      StepResult.next { x := 0, y := 0, d := 1, stack := [5], inp := [], out := [] } ∧
    dispatch '|' { x := 0, y := 0, d := 0, stack := [], inp := [], out := [] } =
      StepResult.next { x := 0, y := 0, d := 3, stack := [], inp := [], out := [] } := by
  constructor
  · have h := (vbranch_semantics
      { x := 0, y := 0, d := 0, stack := [5], inp := [], out := [] }).1 5 [] rfl
    simpa using h
  · exact (vbranch_semantics { x := 0, y := 0, d := 0, stack := [], inp := [], out := [] }).2 rfl

/-- Claim C6: `swap()` is total: on the empty stack it yields a two-element
stack with both values 0; on a one-element stack [a] it yields [0, a]
(0 on top, a beneath); on a stack with at least two elements it exchanges
the top two values and leaves the rest (and the size) unchanged. -/
theorem swap_total_semantics :
    Stack.swap ([] : List Int) = [0, 0] ∧
    (∀ a : Int, Stack.swap [a] = [0, a]) ∧
    (∀ (a b : Int) (rest : List Int), Stack.swap (a :: b :: rest) = b :: a :: rest) :=
  ⟨rfl, fun _ => rfl, fun _ _ _ => rfl⟩

/-- Claim C7: whenever a step continues (does not halt or raise), the
dispatch leaves the IP coordinates untouched, and the IP then advances by
exactly one cell from the old position in the just-updated direction
(the direction the dispatched instruction may itself have set). -/
theorem step_advances_ip (program : List (List Char)) (c c' : Config)
    (h : step program c = StepResult.next c') :
    ∃ cm : Config, dispatch (fetch program c.x c.y) c = StepResult.next cm ∧
      cm.x = c.x ∧ cm.y = c.y ∧ c'.d = cm.d ∧ c'.stack = cm.stack ∧
      (c'.x, c'.y) = move cm.d c.x c.y := by
  unfold step at h
  cases hd : dispatch (fetch program c.x c.y) c with
  | next cm =>
    rw [hd] at h
    obtain ⟨hx, hy⟩ := dispatch_pos _ _ _ hd
    cases h
    refine ⟨cm, rfl, hx, hy, rfl, rfl, ?_⟩
    rw [← hx, ← hy]
  | halted => rw [hd] at h; cases h
  | fatal => rw [hd] at h; cases h

theorem step_advances_ip_witness :
    ∃ cm : Config,
      dispatch (fetch [['>']] 0 0)
          { x := 0, y := 0, d := 3, stack := [], inp := [], out := [] } = StepResult.next cm ∧
      cm.x = 0 ∧ cm.y = 0 ∧ (0 : Nat) = cm.d ∧ ([] : List Int) = cm.stack ∧
      ((1 : Int), (0 : Int)) = move cm.d 0 0 :=
  step_advances_ip [['>']] { x := 0, y := 0, d := 3, stack := [], inp := [], out := [] }
    { x := 1, y := 0, d := 0, stack := [], inp := [], out := [] } (by decide)

/-- Claim C8, refuted on the code: on the two-character input line "ab",
`ord(input())` raises `TypeError` (ord requires a string of length exactly
one), so the run dies instead of pushing the code point 97 of the first
character and ignoring the rest. -/
theorem q_long_line_is_fatal :
    dispatch '?' { x := 0, y := 0, d := 0, stack := [], inp := ["ab"], out := [] } =
      StepResult.fatal ∧
    dispatch '?' { x := 0, y := 0, d := 0, stack := [], inp := ["ab"], out := [] } ≠
      StepResult.next { x := 0, y := 0, d := 0, stack := [97], inp := [], out := [] } :=
  ⟨rfl, by decide⟩

/-- Claim C8 as amended: the `?` instruction pushes the code point of the
input line's character only when the line consists of exactly one character;
for a line of any other length (empty, or two or more characters) `ord`
raises `TypeError` and the run fails. -/
theorem q_single_char_or_fatal (c : Config) (line : String) (rest : List String)
    (h : c.inp = line :: rest) :
    (∀ ch : Char, line.data = [ch] →
       dispatch '?' c =
         StepResult.next { c with stack := Stack.push (Int.ofNat ch.toNat) c.stack,
                                  inp := rest }) ∧
    (line.data.length ≠ 1 → dispatch '?' c = StepResult.fatal) := by
  obtain ⟨cx, cy, cd, cs, ci, co⟩ := c
  have h' : ci = line :: rest := h
  subst h'
  constructor
  · intro ch hch
    rw [dispatch_q_eq]
    simp only [hch, pyOrd_single]
  · intro hlen
    rw [dispatch_q_eq]
    simp only [pyOrd_not_single line.data hlen]

theorem q_single_char_or_fatal_witness :
    dispatch '?' { x := 0, y := 0, d := 0, stack := [], inp := ["A"], out := [] } =
      StepResult.next { x := 0, y := 0, d := 0, stack := [65], inp := [], out := [] } ∧
    dispatch '?' { x := 0, y := 0, d := 0, stack := [], inp := [""], out := [] } =
      StepResult.fatal := by
  constructor
  · have h := (q_single_char_or_fatal
      { x := 0, y := 0, d := 0, stack := [], inp := ["A"], out := [] } "A" [] rfl).1 'A' rfl
    simpa using h
  · exact (q_single_char_or_fatal
      { x := 0, y := 0, d := 0, stack := [], inp := [""], out := [] } "" [] rfl).2 (by decide)

/-- Claim C9: when the `~` instruction reads a line that does not parse as a
base-10 signed integer, the step is fatal (the uncaught `ValueError`
terminates the process with a nonzero status): nothing is pushed and
execution does not continue. -/
theorem tilde_malformed_input_fatal (program : List (List Char)) (c : Config)
    (line : String) (rest : List String)
    (hf : fetch program c.x c.y = '~') (hi : c.inp = line :: rest)
    (hp : pyInt line = none) :
    step program c = StepResult.fatal := by
  have hd : dispatch '~' c = StepResult.fatal := by
    obtain ⟨cx, cy, cd, cs, ci, co⟩ := c
    have h' : ci = line :: rest := hi
    subst h'
    rw [dispatch_tilde_eq]
    simp only [hp]
  unfold step
  rw [hf, hd]

theorem tilde_malformed_input_fatal_witness :
    step [['~']] { x := 0, y := 0, d := 0, stack := [], inp := ["12x"], out := [] } =
      StepResult.fatal :=
  tilde_malformed_input_fatal [['~']]
    { x := 0, y := 0, d := 0, stack := [], inp := ["12x"], out := [] }
    "12x" [] rfl rfl rfl

/-- Claim C10: the `,` instruction is not total over stack values — when the
popped top value is negative or exceeds 0x10FFFF, `chr` raises `ValueError`
and the step is fatal; when the popped value is a valid code point, the step
succeeds and emits that character. -/
theorem comma_requires_valid_code_point (c : Config) (v : Int) (rest : List Int)
    (h : c.stack = v :: rest) :
    ((v < 0 ∨ 0x10FFFF < v) → dispatch ',' c = StepResult.fatal) ∧
    (0 ≤ v → v ≤ 0x10FFFF →
       dispatch ',' c =
         StepResult.next { c with stack := rest,
                                  out := c.out ++ [OutItem.chr v.toNat] }) := by
  obtain ⟨cx, cy, cd, cs, ci, co⟩ := c
  have h' : cs = v :: rest := h
  subst h'
  constructor
  · intro hv
    rw [dispatch_comma_eq]
    have hc : pyChr v = none := by
      simp only [pyChr]
      rw [if_neg]
      omega
    simp only [Stack.pop, hc]
  · intro h0 h1
    rw [dispatch_comma_eq]
    have hc : pyChr v = some v.toNat := by
      simp only [pyChr]
      rw [if_pos ⟨h0, h1⟩]
    simp only [Stack.pop, hc]

theorem comma_requires_valid_code_point_witness :
    dispatch ',' { x := 0, y := 0, d := 0, stack := [-1], inp := [], out := [] } =
      StepResult.fatal ∧
    dispatch ',' { x := 0, y := 0, d := 0, stack := [65], inp := [], out := [] } =
      StepResult.next { x := 0, y := 0, d := 0, stack := [], inp := [], out := [OutItem.chr 65] } := by
  constructor
  · exact (comma_requires_valid_code_point
      { x := 0, y := 0, d := 0, stack := [-1], inp := [], out := [] } (-1) [] rfl).1
      (Or.inl (by decide))
  · have h := (comma_requires_valid_code_point
      { x := 0, y := 0, d := 0, stack := [65], inp := [], out := [] } 65 [] rfl).2
      (by decide) (by decide)
    simpa using h

end ZeroStack2D
